import Mathlib

/-!
Shallow embedding of the scroll-snap capture/stitch engine
(src/src-tauri/src/stitch.rs and src/src-tauri/src/capture.rs).

Images are modelled as a width, a height and a total pixel function;
the Rust code only ever reads pixels inside the declared bounds, so the
total function is a conservative model of the buffers of the `image` crate.
Machine integers (`u32`, `i32`) are modelled as `Nat`/`Int`; the one
place where wrapping matters (`new_fragment.height() - 1` on `u32` in
the capture loop) is modelled explicitly by `u32sub1`.
-/

/-- An RGBA pixel, four channels (each a byte in the source). -/
structure Rgba where
  r : Nat
  g : Nat
  b : Nat
  a : Nat
deriving DecidableEq, Repr

/-- A raster image: width, height and a total pixel lookup
(`DynamicImage` in the source; `pix x y` models `get_pixel(x, y)`). -/
structure Image where
  width : Nat
  height : Nat
  pix : Nat → Nat → Rgba

/-- stitch.rs `pixels_are_similar`: the sum of the three absolute channel
differences (computed in `i32`) must not exceed the tolerance; alpha is
not read. -/
def pixels_are_similar (p1 p2 : Rgba) (tolerance : Int) : Bool :=
  let r_diff : Int := ((p1.r : Int) - (p2.r : Int)).natAbs
  let g_diff : Int := ((p1.g : Int) - (p2.g : Int)).natAbs
  let b_diff : Int := ((p1.b : Int) - (p2.b : Int)).natAbs
  decide (r_diff + g_diff + b_diff ≤ tolerance)

/-- stitch.rs `compare_blocks`: compare two row blocks of equal height,
sampling every 5th column (`step_by(5)` over `0..width`, modelled as the
columns divisible by 5), with tolerance 15. -/
def compare_blocks (img1 : Image) (y1 : Nat) (img2 : Image) (y2 : Nat)
    (width height : Nat) : Bool :=
  let tolerance : Int := 15
  (List.range height).all fun h =>
    ((List.range width).filter fun x => x % 5 == 0).all fun x =>
      pixels_are_similar (img1.pix x (y1 + h)) (img2.pix x (y2 + h)) tolerance

/-- The search loop of stitch.rs `calculate_overlap`
(`for y in 0..scan_depth`): given the current offset `y` and the number
of iterations left, break (`none`) as soon as
`y + signature_height > curr_height`, return the first `y` whose
signature block compares equal, else advance. -/
def scanRows (prev_img curr_img : Image)
    (signature_start_y signature_height width curr_height : Nat) :
    Nat → Nat → Option Nat
  | _, 0 => none
  | y, Nat.succ k =>
    if curr_height < y + signature_height then none
    else if compare_blocks prev_img signature_start_y curr_img y width
        signature_height then some y
    else scanRows prev_img curr_img signature_start_y signature_height width
        curr_height (y + 1) k

/-- stitch.rs `calculate_overlap`: take a signature of the bottom
`min 5 prev_height` rows of `prev_img`, search for it in the top
`prev_height / 2` rows of `curr_img`; on a match at `y` return
`y + signature_height - 1`, otherwise `0`. -/
def calculate_overlap (prev_img curr_img : Image) : Nat :=
  let width := prev_img.width
  let prev_height := prev_img.height
  let curr_height := curr_img.height
  let scan_depth := prev_height / 2
  if width = 0 ∨ prev_height = 0 ∨ curr_height = 0 then 0
  else
    let signature_height := min 5 prev_height
    let signature_start_y := prev_height - signature_height
    match scanRows prev_img curr_img signature_start_y signature_height width
        curr_height 0 scan_depth with
    | some y => y + signature_height - 1
    | none => 0

/-- stitch.rs `append_image`: skip rows `0..=overlap_index` of `new_img`
and paste the rest beneath `base_img`; if nothing is left, return the
base unchanged. The fresh buffer (`ImageBuffer::new`) is zero, the base
is copied at `y < base_height, x < base_width`, the remainder of
`new_img` at `base_height ≤ y, x < new_width`. -/
def append_image (base_img new_img : Image) (overlap_index : Nat) : Image :=
  let base_width := base_img.width
  let base_height := base_img.height
  let new_width := new_img.width
  let new_height := new_img.height
  let start_y := overlap_index + 1
  if new_height ≤ start_y then base_img
  else
    let append_height := new_height - start_y
    let final_width := max base_width new_width
    let final_height := base_height + append_height
    { width := final_width
      height := final_height
      pix := fun x y =>
        if x < base_width ∧ y < base_height then base_img.pix x y
        else if x < new_width ∧ base_height ≤ y ∧ y < final_height then
          new_img.pix x (start_y + (y - base_height))
        else ⟨0, 0, 0, 0⟩ }

/-- A solid-colour image: every pixel is the same colour. -/
def solid (w h : Nat) (c : Rgba) : Image :=
  ⟨w, h, fun _ _ => c⟩

/-- Wrapping `u32` subtraction of 1, as in the capture loop expression
`new_fragment.height() - 1`. -/
def u32sub1 (n : Nat) : Nat :=
  if n = 0 then 4294967295 else n - 1

/-- The detector outcomes named by the design: `Matched`, `NoOverlap`,
`FullDuplicate`. -/
inductive OverlapKind where
  | Matched
  | NoOverlap
  | FullDuplicate
deriving DecidableEq, Repr

/-- The branch structure of one tick of capture.rs `run_capture_loop` on
the value of `calculate_overlap`: `overlap_index == height - 1` (wrapping
`u32` subtraction) is treated as static content (`FullDuplicate`),
`overlap_index == 0` as `NoOverlap`, anything else as `Matched`. -/
def classify_tick (overlap_index curr_height : Nat) : OverlapKind :=
  if overlap_index = u32sub1 curr_height then OverlapKind.FullDuplicate
  else if overlap_index = 0 then OverlapKind.NoOverlap
  else OverlapKind.Matched

/-- The composite-updating effect of one tick of `run_capture_loop`:
only the `Matched` branch stitches (`append_image`); the static and
no-overlap branches `continue` with the composite untouched. -/
def tick_stitch (full_image new_fragment : Image) : Image :=
  let overlap_index := calculate_overlap full_image new_fragment
  if overlap_index = u32sub1 new_fragment.height then full_image
  else if overlap_index = 0 then full_image
  else append_image full_image new_fragment overlap_index

/-- Observable registry state of capture.rs: the value of the single
`CAPTURE_STATES` entry under key `"current"` (if present) and the number
of capture-loop threads spawned and not yet finished. -/
structure CaptureStates where
  current : Option Bool
  running : Nat
deriving DecidableEq, Repr

/-- capture.rs `start_scroll_capture`, as a transition on the observable
registry state: it unconditionally inserts a fresh `false` stop flag
under `"current"` (overwriting any existing one), spawns one more
capture-loop thread, and returns `Ok(())` — there is no check of any
already-running session. -/
def start_scroll_capture (s : CaptureStates) :
    CaptureStates × Except String Unit :=
  ({ current := some false, running := s.running + 1 }, Except.ok ())

/-- capture.rs `stop_scroll_capture`: set the `"current"` stop flag to
true if present; always returns `Ok(())`. -/
def stop_scroll_capture (s : CaptureStates) :
    CaptureStates × Except String Unit :=
  (match s.current with
   | some _ => { s with current := some true }
   | none => s, Except.ok ())

/-- If the search loop returns `some z`, then `z` lies in the scanned
range, its block fits inside the candidate, and its block compares
equal. -/
theorem scanRows_some_spec (p c : Image) (ss sh w ch : Nat) :
    ∀ k y z, scanRows p c ss sh w ch y k = some z →
      y ≤ z ∧ z < y + k ∧ z + sh ≤ ch ∧
        compare_blocks p ss c z w sh = true := by
  intro k
  induction k with
  | zero => intro y z hsc; simp [scanRows] at hsc
  | succ n ih =>
    intro y z hsc
    rw [scanRows] at hsc
    by_cases h1 : ch < y + sh
    · rw [if_pos h1] at hsc; exact absurd hsc (by simp)
    · rw [if_neg h1] at hsc
      by_cases h2 : compare_blocks p ss c y w sh = true
      · rw [if_pos h2] at hsc
        obtain rfl : y = z := by simpa using hsc
        exact ⟨le_refl _, by omega, by omega, h2⟩
      · rw [if_neg h2] at hsc
        obtain ⟨hy, hz, hch, hc⟩ := ih (y + 1) z hsc
        exact ⟨by omega, by omega, hch, hc⟩

/-- The search loop returns the first matching offset: every earlier
offset in the scanned range fails the block comparison. -/
theorem scanRows_first (p c : Image) (ss sh w ch : Nat) :
    ∀ k y z, scanRows p c ss sh w ch y k = some z →
      ∀ u, y ≤ u → u < z → compare_blocks p ss c u w sh = false := by
  intro k
  induction k with
  | zero => intro y z hsc; simp [scanRows] at hsc
  | succ n ih =>
    intro y z hsc u hyu huz
    rw [scanRows] at hsc
    by_cases h1 : ch < y + sh
    · rw [if_pos h1] at hsc; exact absurd hsc (by simp)
    · rw [if_neg h1] at hsc
      by_cases h2 : compare_blocks p ss c y w sh = true
      · rw [if_pos h2] at hsc
        obtain rfl : y = z := by simpa using hsc
        omega
      · rw [if_neg h2] at hsc
        rcases Nat.eq_or_lt_of_le hyu with rfl | hlt
        · rcases Bool.eq_false_or_eq_true (compare_blocks p ss c y w sh) with
            hb | hb
          · exact absurd hb h2
          · exact hb
        · exact ih (y + 1) z hsc u hlt huz

/-- Completeness of the search loop: if `z` is in range, its block fits
and matches, and every earlier offset fails, the loop returns `some z`. -/
theorem scanRows_complete (p c : Image) (ss sh w ch : Nat) :
    ∀ k y z, y ≤ z → z < y + k → z + sh ≤ ch →
      compare_blocks p ss c z w sh = true →
      (∀ u, y ≤ u → u < z → compare_blocks p ss c u w sh = false) →
      scanRows p c ss sh w ch y k = some z := by
  intro k
  induction k with
  | zero => intro y z h1 h2 _ _ _; omega
  | succ n ih =>
    intro y z hyz hzk hch hcmp hmin
    rw [scanRows]
    rw [if_neg (by omega : ¬ ch < y + sh)]
    rcases Nat.eq_or_lt_of_le hyz with rfl | hlt
    · rw [if_pos hcmp]
    · have hy : compare_blocks p ss c y w sh = false :=
        hmin y (le_refl y) hlt
      rw [if_neg (by simp [hy])]
      exact ih (y + 1) z hlt (by omega) hch hcmp
        (fun u hu1 hu2 => hmin u (by omega) hu2)

/-- The overlap index returned by `calculate_overlap` never reaches the
height of the candidate: it is at most `curr_height - 1`. -/
theorem calculate_overlap_le (p c : Image) :
    calculate_overlap p c ≤ c.height - 1 := by
  simp only [calculate_overlap]
  split
  · exact Nat.zero_le _
  · split
    · next y hy =>
      obtain ⟨-, -, hch, -⟩ := scanRows_some_spec p c _ _ _ _ _ _ _ hy
      omega
    · exact Nat.zero_le _

/-- A zero-height candidate short-circuits `calculate_overlap` to 0. -/
theorem calculate_overlap_of_curr_zero (p c : Image) (h : c.height = 0) :
    calculate_overlap p c = 0 := by
  simp only [calculate_overlap]
  rw [if_pos (Or.inr (Or.inr h))]

/-- An `append_image` with nothing left to paste returns the base. -/
theorem append_image_of_ge (base_img new_img : Image) (overlap_index : Nat)
    (h : new_img.height ≤ overlap_index + 1) :
    append_image base_img new_img overlap_index = base_img := by
  simp only [append_image]
  rw [if_pos h]

/-- Height of a non-degenerate `append_image`. -/
theorem append_image_height (base_img new_img : Image) (overlap_index : Nat)
    (h : overlap_index + 1 < new_img.height) :
    (append_image base_img new_img overlap_index).height =
      base_img.height + (new_img.height - (overlap_index + 1)) := by
  simp only [append_image]
  rw [if_neg (by omega : ¬ new_img.height ≤ overlap_index + 1)]

/-- The tick classifier reports `Matched` exactly when the overlap index is
neither the static-content value nor zero. -/
theorem classify_tick_matched (oi ch : Nat) :
    classify_tick oi ch = OverlapKind.Matched ↔ oi ≠ u32sub1 ch ∧ oi ≠ 0 := by
  rw [classify_tick]
  split_ifs with h1 h2 <;> simp_all

/-- Reference image for C7: width 1, height 30; rows 25–29 are black,
the rows above are grey (so the signature is the black band). -/
def img7prev : Image :=
  ⟨1, 30, fun _ y => if 25 ≤ y then ⟨0, 0, 0, 255⟩ else ⟨100, 100, 100, 255⟩⟩

/-- Candidate image for C7: width 1, height 10; rows 5–9 are black, rows
0–4 grey — the signature occurs exactly at offset 5. -/
def img7curr : Image :=
  ⟨1, 10, fun _ y => if 5 ≤ y then ⟨0, 0, 0, 255⟩ else ⟨100, 100, 100, 255⟩⟩

/-- C3: the claim says two pixels are similar iff each of the R, G, B
absolute differences is within the tolerance, and that all-channel
differences exactly at the tolerance are judged similar. Counterexample:
for (0,0,0) vs (15,15,15) every channel difference is exactly the
tolerance 15, yet `pixels_are_similar` judges them dissimilar, because
the code compares the SUM of the three differences to the tolerance. -/
theorem claim_C3_counterexample :
    ((0 : Int) - 15).natAbs = 15 ∧ (15 : Int) ≤ 15 ∧
      pixels_are_similar ⟨0, 0, 0, 0⟩ ⟨15, 15, 15, 0⟩ 15 = false := by
  decide

/-- C3 (amended): two pixels are similar iff the sum of the R, G and B
absolute channel differences is within the tolerance; alpha is ignored
(the predicate is unchanged under replacing either alpha channel). The
boundary behaviour follows: total difference exactly 15 is similar, one
more unit of total difference is dissimilar. -/
theorem claim_C3_amended (p1 p2 : Rgba) (a1 a2 : Nat) :
    (pixels_are_similar p1 p2 15 = true ↔
      ((((p1.r : Int) - (p2.r : Int)).natAbs : Int) +
        (((p1.g : Int) - (p2.g : Int)).natAbs : Int) +
        (((p1.b : Int) - (p2.b : Int)).natAbs : Int) ≤ 15)) ∧
    pixels_are_similar ⟨p1.r, p1.g, p1.b, a1⟩ ⟨p2.r, p2.g, p2.b, a2⟩ 15 =
      pixels_are_similar p1 p2 15 := by
  constructor
  · simp [pixels_are_similar]
  · rfl

/-- C4: the claim says a first verified offset `y` yields return value
`y + signatureHeight`. Counterexample: for two identical solid 5×10
images the first verified offset is 0 and the signature height is 5,
yet `calculate_overlap` returns 4, not 0 + 5. -/
theorem claim_C4_counterexample :
    compare_blocks (solid 5 10 ⟨9, 9, 9, 9⟩) 5 (solid 5 10 ⟨9, 9, 9, 9⟩) 0 5 5 =
        true ∧
      calculate_overlap (solid 5 10 ⟨9, 9, 9, 9⟩) (solid 5 10 ⟨9, 9, 9, 9⟩) = 4 ∧
      (4 : Nat) ≠ 0 + 5 := by
  decide

/-- C4 (amended): when `y` is the first offset in the scanned range whose
signature block verifies, `calculate_overlap` returns
`y + signatureHeight - 1` — the inclusive index of the last duplicated
leading row of the candidate, one less than the count
`y + signatureHeight` of duplicated leading rows. -/
theorem claim_C4_amended (prev_img curr_img : Image) (y : Nat)
    (hw : prev_img.width ≠ 0) (hp : prev_img.height ≠ 0)
    (hc : curr_img.height ≠ 0)
    (hdepth : y < prev_img.height / 2)
    (hfit : y + min 5 prev_img.height ≤ curr_img.height)
    (hmatch : compare_blocks prev_img (prev_img.height - min 5 prev_img.height)
      curr_img y prev_img.width (min 5 prev_img.height) = true)
    (hfirst : ∀ u, u < y →
      compare_blocks prev_img (prev_img.height - min 5 prev_img.height)
        curr_img u prev_img.width (min 5 prev_img.height) = false) :
    calculate_overlap prev_img curr_img = y + min 5 prev_img.height - 1 := by
  have hsr := scanRows_complete prev_img curr_img
    (prev_img.height - min 5 prev_img.height) (min 5 prev_img.height)
    prev_img.width curr_img.height (prev_img.height / 2) 0 y
    (Nat.zero_le y) (by omega) hfit hmatch (fun u _ hu => hfirst u hu)
  simp only [calculate_overlap]
  rw [if_neg (by simp [hw, hp, hc]), hsr]

/-- Witness for the amended C4 at two identical solid 5×10 images, where
the first verified offset is 0. -/
theorem claim_C4_witness :
    calculate_overlap (solid 5 10 ⟨7, 7, 7, 7⟩) (solid 5 10 ⟨7, 7, 7, 7⟩) =
      0 + min 5 (solid 5 10 ⟨7, 7, 7, 7⟩).height - 1 :=
  claim_C4_amended _ _ 0 (by decide) (by decide) (by decide) (by decide)
    (by decide) (by decide) (fun u hu => absurd hu (Nat.not_lt_zero u))

/-- C5: the claim says append with `offset < frame.height` copies rows
`[offset, frame.height)` so the output height is
`base.height + (frame.height - offset)`. Counterexample: base 1×1,
frame 1×2, overlap index 1 < 2: the code returns the base unchanged
(height 1), not a height-2 image. -/
theorem claim_C5_counterexample :
    1 < (solid 1 2 ⟨3, 3, 3, 3⟩).height ∧
      (append_image (solid 1 1 ⟨3, 3, 3, 3⟩) (solid 1 2 ⟨3, 3, 3, 3⟩) 1).height ≠
        (solid 1 1 ⟨3, 3, 3, 3⟩).height + ((solid 1 2 ⟨3, 3, 3, 3⟩).height - 1) := by
  decide

/-- C5 (amended): for `overlap_index + 1 < frame.height`, `append_image`
copies exactly the frame rows `[overlap_index + 1, frame.height)` beneath
the base: output height is `base.height + (frame.height -
(overlap_index + 1))`, output width is `max base.width frame.width`, the
base region is preserved, and row `overlap_index + 1 + j` of the frame
lands at row `base.height + j` (clipped to the width of the frame). -/
theorem claim_C5_amended (base_img new_img : Image) (overlap_index : Nat)
    (h : overlap_index + 1 < new_img.height) :
    (append_image base_img new_img overlap_index).height =
        base_img.height + (new_img.height - (overlap_index + 1)) ∧
    (append_image base_img new_img overlap_index).width =
        max base_img.width new_img.width ∧
    (∀ x y, x < base_img.width → y < base_img.height →
      (append_image base_img new_img overlap_index).pix x y =
        base_img.pix x y) ∧
    (∀ x j, x < new_img.width → j < new_img.height - (overlap_index + 1) →
      (append_image base_img new_img overlap_index).pix x
          (base_img.height + j) =
        new_img.pix x (overlap_index + 1 + j)) := by
  have hn : ¬ new_img.height ≤ overlap_index + 1 := by omega
  refine ⟨?_, ?_, ?_, ?_⟩
  · simp only [append_image, if_neg hn]
  · simp only [append_image, if_neg hn]
  · intro x y hx hy
    simp only [append_image, if_neg hn]
    rw [if_pos (show x < base_img.width ∧ y < base_img.height from ⟨hx, hy⟩)]
  · intro x j hx hj
    simp only [append_image, if_neg hn]
    rw [if_neg (show ¬ (x < base_img.width ∧
        base_img.height + j < base_img.height) by omega)]
    rw [if_pos (show x < new_img.width ∧
        base_img.height ≤ base_img.height + j ∧
        base_img.height + j <
          base_img.height + (new_img.height - (overlap_index + 1)) from
      ⟨hx, by omega, by omega⟩)]
    congr 1
    omega

/-- Witness for the amended C5: solid base 2×3, solid frame 2×4,
overlap index 1. -/
theorem claim_C5_witness :
    1 + 1 < (solid 2 4 ⟨6, 6, 6, 6⟩).height ∧
      (append_image (solid 2 3 ⟨6, 6, 6, 6⟩) (solid 2 4 ⟨6, 6, 6, 6⟩) 1).height =
        (solid 2 3 ⟨6, 6, 6, 6⟩).height +
          ((solid 2 4 ⟨6, 6, 6, 6⟩).height - (1 + 1)) :=
  ⟨by decide, (claim_C5_amended _ _ 1 (by decide)).1⟩

/-- C6: an append whose overlap index is at least the frame height
returns the base image unchanged (a no-op, not an error). -/
theorem claim_C6 (base_img new_img : Image) (overlap_index : Nat)
    (h : new_img.height ≤ overlap_index) :
    append_image base_img new_img overlap_index = base_img :=
  append_image_of_ge base_img new_img overlap_index (by omega)

/-- Witness for C6: frame height 2, overlap index 7. -/
theorem claim_C6_witness :
    (solid 3 2 ⟨1, 2, 3, 4⟩).height ≤ 7 ∧
      append_image (solid 4 5 ⟨1, 2, 3, 4⟩) (solid 3 2 ⟨1, 2, 3, 4⟩) 7 =
        solid 4 5 ⟨1, 2, 3, 4⟩ :=
  ⟨by decide, claim_C6 _ _ 7 (by decide)⟩

/-- C7: the claim says the search never examines offsets at or beyond
`min(candidate.height, reference.height) / 2`. Counterexample: reference
1×30, candidate 1×10; the depth bound in the code is `reference.height / 2 =
15`, so offset 5 — which is NOT strictly below `min(10, 30) / 2 = 5` —
is examined, verifies (and no earlier offset does), and the detector
returns the Matched value 9 = 5 + 5 - 1. -/
theorem claim_C7_counterexample :
    calculate_overlap img7prev img7curr = 9 ∧
      compare_blocks img7prev 25 img7curr 5 1 5 = true ∧
      (∀ u, u < 5 → compare_blocks img7prev 25 img7curr u 1 5 = false) ∧
      ¬ 5 < min img7curr.height img7prev.height / 2 := by
  decide

/-- C7 (amended): the search depth is bounded by `reference.height / 2`
(not by the min of the two heights): any nonzero overlap value `v` comes
from a matching row `v + 1 - signatureHeight` strictly below
`reference.height / 2`, and `v` is strictly below `candidate.height`. -/
theorem claim_C7_amended (p c : Image) (h : calculate_overlap p c ≠ 0) :
    calculate_overlap p c + 1 - min 5 p.height < p.height / 2 ∧
      calculate_overlap p c + 1 ≤ c.height := by
  revert h
  simp only [calculate_overlap]
  split
  · intro h; exact absurd rfl h
  · next hcond =>
    split
    · next y hy =>
      intro _
      obtain ⟨-, hlt, hch, -⟩ := scanRows_some_spec p c _ _ _ _ _ _ _ hy
      have hph : p.height ≠ 0 := by tauto
      have hsig : 1 ≤ min 5 p.height := by omega
      constructor
      · omega
      · omega
    · intro h; exact absurd rfl h

/-- Witness for the amended C7 at the 1×30 / 1×10 pair. -/
theorem claim_C7_witness :
    calculate_overlap img7prev img7curr + 1 - min 5 img7prev.height <
        img7prev.height / 2 ∧
      calculate_overlap img7prev img7curr + 1 ≤ img7curr.height :=
  claim_C7_amended img7prev img7curr (by decide)

/-- C8: the claim says images narrower than the sampling stride
short-circuit to `NoOverlap`. Counterexample: two identical solid 1×10
images (width 1 < stride 5) yield the Matched value 4, not 0 — the
sparse check simply samples column 0. -/
theorem claim_C8_counterexample :
    (solid 1 10 ⟨9, 9, 9, 9⟩).width < 5 ∧
      calculate_overlap (solid 1 10 ⟨9, 9, 9, 9⟩) (solid 1 10 ⟨9, 9, 9, 9⟩) = 4 ∧
      (4 : Nat) ≠ 0 := by
  decide

/-- C8 (amended): zero-area inputs (zero width of the reference, zero
height of either image) and a candidate shorter than the signature
height short-circuit to 0 (`NoOverlap`); narrow images do not. -/
theorem claim_C8_amended (p c : Image) :
    (p.width = 0 ∨ p.height = 0 ∨ c.height = 0 → calculate_overlap p c = 0) ∧
    (c.height < min 5 p.height → calculate_overlap p c = 0) := by
  constructor
  · intro h
    simp only [calculate_overlap]
    rw [if_pos h]
  · intro h
    simp only [calculate_overlap]
    split
    · rfl
    · have hnone : scanRows p c (p.height - min 5 p.height) (min 5 p.height)
          p.width c.height 0 (p.height / 2) = none := by
        cases hk : p.height / 2 with
        | zero => simp [scanRows]
        | succ n =>
          rw [scanRows,
            if_pos (show c.height < 0 + min 5 p.height by omega)]
      rw [hnone]

/-- Witness for the amended C8: a zero-width reference, and a candidate
of height 3 against a reference of height 9 (signature height 5). -/
theorem claim_C8_witness :
    calculate_overlap (solid 0 4 ⟨5, 5, 5, 5⟩) (solid 2 4 ⟨5, 5, 5, 5⟩) = 0 ∧
      calculate_overlap (solid 6 9 ⟨5, 5, 5, 5⟩) (solid 6 3 ⟨5, 5, 5, 5⟩) = 0 :=
  ⟨(claim_C8_amended _ _).1 (Or.inl (by decide)),
   (claim_C8_amended _ _).2 (by decide)⟩

/-- C10: for nonzero-dimension inputs the overlap value is at most
`candidate.height - 1`, hence denotes a row inside the candidate frame. -/
theorem claim_C10 (p c : Image) (hw : p.width ≠ 0) (hp : p.height ≠ 0)
    (hc : c.height ≠ 0) :
    calculate_overlap p c ≤ c.height - 1 ∧ calculate_overlap p c < c.height := by
  have h := calculate_overlap_le p c
  omega

/-- Witness for C10 at two identical solid 5×10 images. -/
theorem claim_C10_witness :
    (solid 5 10 ⟨8, 8, 8, 8⟩).width ≠ 0 ∧
      (solid 5 10 ⟨8, 8, 8, 8⟩).height ≠ 0 ∧
      calculate_overlap (solid 5 10 ⟨8, 8, 8, 8⟩) (solid 5 10 ⟨8, 8, 8, 8⟩) ≤
        (solid 5 10 ⟨8, 8, 8, 8⟩).height - 1 :=
  ⟨by decide, by decide,
    (claim_C10 _ _ (by decide) (by decide) (by decide)).1⟩

/-- C9: over one capture-loop tick, a `Matched` outcome strictly grows
the composite, and a `NoOverlap` or `FullDuplicate` outcome leaves its
height exactly unchanged. -/
theorem claim_C9 (full_image new_fragment : Image) :
    (classify_tick (calculate_overlap full_image new_fragment)
        new_fragment.height = OverlapKind.Matched →
      full_image.height < (tick_stitch full_image new_fragment).height) ∧
    (classify_tick (calculate_overlap full_image new_fragment)
        new_fragment.height ≠ OverlapKind.Matched →
      (tick_stitch full_image new_fragment).height = full_image.height) := by
  constructor
  · intro hm
    obtain ⟨h1, h2⟩ := (classify_tick_matched _ _).mp hm
    have hch : new_fragment.height ≠ 0 := fun h0 =>
      h2 (calculate_overlap_of_curr_zero _ _ h0)
    have hle := calculate_overlap_le full_image new_fragment
    have hu : u32sub1 new_fragment.height = new_fragment.height - 1 := by
      rw [u32sub1, if_neg hch]
    rw [hu] at h1
    have hlt : calculate_overlap full_image new_fragment + 1 <
        new_fragment.height := by omega
    simp only [tick_stitch]
    rw [if_neg (show ¬ calculate_overlap full_image new_fragment =
        u32sub1 new_fragment.height by rw [hu]; exact h1), if_neg h2]
    rw [append_image_height _ _ _ hlt]
    omega
  · intro hm
    simp only [tick_stitch]
    by_cases h1 : calculate_overlap full_image new_fragment =
        u32sub1 new_fragment.height
    · rw [if_pos h1]
    · by_cases h2 : calculate_overlap full_image new_fragment = 0
      · rw [if_neg h1, if_pos h2]
      · exact absurd ((classify_tick_matched _ _).mpr ⟨h1, h2⟩) hm

/-- Witness for C9: two identical solid 5×10 images give a `Matched`
tick (overlap value 4) that grows the composite; black versus white
5×10 images give a `NoOverlap` tick that leaves it unchanged. -/
theorem claim_C9_witness :
    (classify_tick
        (calculate_overlap (solid 5 10 ⟨8, 8, 8, 8⟩) (solid 5 10 ⟨8, 8, 8, 8⟩))
        (solid 5 10 ⟨8, 8, 8, 8⟩).height = OverlapKind.Matched ∧
      (solid 5 10 ⟨8, 8, 8, 8⟩).height <
        (tick_stitch (solid 5 10 ⟨8, 8, 8, 8⟩) (solid 5 10 ⟨8, 8, 8, 8⟩)).height) ∧
    (classify_tick
        (calculate_overlap (solid 5 10 ⟨0, 0, 0, 255⟩)
          (solid 5 10 ⟨200, 200, 200, 255⟩))
        (solid 5 10 ⟨200, 200, 200, 255⟩).height ≠ OverlapKind.Matched ∧
      (tick_stitch (solid 5 10 ⟨0, 0, 0, 255⟩)
          (solid 5 10 ⟨200, 200, 200, 255⟩)).height =
        (solid 5 10 ⟨0, 0, 0, 255⟩).height) :=
  ⟨⟨by decide, (claim_C9 _ _).1 (by decide)⟩,
   ⟨by decide, (claim_C9 _ _).2 (by decide)⟩⟩

/-- C1: the claim (and Scenario B of the design) says a candidate identical
to the reference yields the FullDuplicate value `candidate.height - 1`.
Evaluating the code on two identical solid 100×100 frames: the detector
matches the signature already at offset 0 and returns 4, not 99; the
capture-loop branch therefore classifies the tick as `Matched` and
appends 95 duplicated rows (composite height 195), instead of counting
a static tick. -/
theorem claim_C1_code_eval :
    calculate_overlap (solid 100 100 ⟨30, 30, 30, 255⟩)
        (solid 100 100 ⟨30, 30, 30, 255⟩) = 4 ∧
      (4 : Nat) ≠ (solid 100 100 ⟨30, 30, 30, 255⟩).height - 1 ∧
      classify_tick 4 (solid 100 100 ⟨30, 30, 30, 255⟩).height =
        OverlapKind.Matched ∧
      (tick_stitch (solid 100 100 ⟨30, 30, 30, 255⟩)
          (solid 100 100 ⟨30, 30, 30, 255⟩)).height = 195 := by
  decide

/-- C2: the claim says a start request while a session is running is
rejected with `SessionAlreadyRunning`. `start_scroll_capture` has no
such check: from any state — in particular one with a session already
running — it returns `Ok(())`, spawns one more capture loop, and
overwrites the `"current"` stop flag with a fresh `false`. -/
theorem claim_C2_code_eval (s : CaptureStates) :
    (start_scroll_capture s).2 = Except.ok () ∧
      (start_scroll_capture s).1.running = s.running + 1 ∧
      (start_scroll_capture s).1.current = some false :=
  ⟨rfl, rfl, rfl⟩
